import Mathlib

/-!
Shallow embedding of `src/las/point10.rs` from the laz-rs repository:
the per-point predictive codec for LAS Point Data Record Format 0
("Point10"), versions 1 and 2.

Conventions used throughout:
* Rust `i32` / `i8` values are `Int` with explicit wrapping (`wrap32`,
  `wrap8`) at the places where Rust (release mode) arithmetic wraps.
* Rust `u8` / `u16` values are `Nat`; casts `as u8` / `as u16` keep the low
  bits (`% 2 ^ 8`, `% 2 ^ 16`).
* Bitwise `x & 0x7`, `x >> 3`, ... on unsigned bytes are rendered with the
  equivalent `% 8`, `/ 8`, ... arithmetic.
* The external collaborators of the codec (arithmetic encoder / decoder,
  integer compressor / decompressor, streaming median, the
  `NUMBER_RETURN_MAP` / `NUMBER_RETURN_LEVEL` tables and `u32_zero_bit`
  from `las::utils`) are not part of `src/las/point10.rs`; they are
  modelled from the spec, see the individual doc comments.
-/

set_option maxHeartbeats 1000000

/-- Wrapping 32-bit signed interpretation of an integer: models Rust
release-mode `i32` arithmetic results. -/
def wrap32 (z : Int) : Int := (z + 2 ^ 31) % 2 ^ 32 - 2 ^ 31

/-- Wrapping 8-bit signed interpretation of an integer: models Rust
release-mode `i8` arithmetic results and `as i8` casts. -/
def wrap8 (z : Int) : Int := (z + 2 ^ 7) % 2 ^ 8 - 2 ^ 7

/-- `as u16` on a signed value: keep the low 16 bits. -/
def toU16 (z : Int) : Nat := (z % 2 ^ 16).toNat

/-- `as u8` on a signed value: keep the low 8 bits. -/
def toU8 (z : Int) : Nat := (z % 2 ^ 8).toNat

/-- Pointwise update of an array modelled as a total function. -/
def updf {α : Type} (f : Nat → α) (i : Nat) (v : α) : Nat → α :=
  fun j => if j = i then v else f j

theorem wrap32_eq_self {z : Int} (h1 : -(2 ^ 31) ≤ z) (h2 : z < 2 ^ 31) :
    wrap32 z = z := by
  unfold wrap32; omega

theorem wrap8_eq_self {z : Int} (h1 : -(2 ^ 7) ≤ z) (h2 : z < 2 ^ 7) :
    wrap8 z = z := by
  unfold wrap8; omega

theorem toU16_eq_self {n : Nat} (h : n < 2 ^ 16) : toU16 (n : Int) = n := by
  unfold toU16; omega

/-- `struct Point0` from the source.  The four sub-fields of the packed
`bit_fields` byte are stored individually, exactly as in the Rust struct. -/
@[ext]
structure Point0 where
  x : Int
  y : Int
  z : Int
  intensity : Nat
  number_of_returns_of_given_pulse : Nat
  scan_direction_flag : Bool
  edge_of_flight_line : Bool
  return_number : Nat
  classification : Nat
  scan_angle_rank : Int
  user_data : Nat
  point_source_id : Nat
deriving DecidableEq, Repr

/-- `Point0::default()`: all fields zero / false. -/
def Point0.default : Point0 :=
  { x := 0, y := 0, z := 0, intensity := 0,
    number_of_returns_of_given_pulse := 0, scan_direction_flag := false,
    edge_of_flight_line := false, return_number := 0, classification := 0,
    scan_angle_rank := 0, user_data := 0, point_source_id := 0 }

/-- `Point0::populate_bit_fields_from`: unpack the packed byte
(`byte & 0x7`, `(byte >> 3) & 0x7`, `(byte >> 6) & 0x1`, `(byte >> 7) & 0x1`
rendered as `%`- and `/`-arithmetic). -/
def Point0.populate_bit_fields_from (p : Point0) (byte : Nat) : Point0 :=
  { p with
    return_number := byte % 8,
    number_of_returns_of_given_pulse := byte / 8 % 8,
    scan_direction_flag := byte / 64 % 2 != 0,
    edge_of_flight_line := byte / 128 % 2 != 0 }

/-- `Point0::bit_fields_to_byte`:
`((d & 1) << 7) | ((c & 1) << 6) | ((b & 7) << 3) | (a & 7)` where the shifted
fields occupy disjoint bits, rendered as a sum. -/
def Point0.bit_fields_to_byte (p : Point0) : Nat :=
  (cond p.edge_of_flight_line 1 0) * 128 + (cond p.scan_direction_flag 1 0) * 64
    + p.number_of_returns_of_given_pulse % 8 * 8 + p.return_number % 8

/-- The trait default method `LasPoint0::set_fields_from`: every field of
`p` is overwritten from `other`; the bit fields travel through the packed
byte (`set_bit_fields(other.bit_fields())`). -/
def Point0.set_fields_from (p other : Point0) : Point0 :=
  ({ p with
      x := other.x, y := other.y, z := other.z,
      intensity := other.intensity,
      classification := other.classification,
      scan_angle_rank := other.scan_angle_rank,
      user_data := other.user_data,
      point_source_id := other.point_source_id
      } : Point0).populate_bit_fields_from other.bit_fields_to_byte

/-- A `Point0` whose fields are inside the ranges of the Rust field types,
with the additional Point10 invariant `return_number ≤ 7`,
`number_of_returns ≤ 7` (the `u8` fields holding 3-bit quantities). -/
def WfPoint (p : Point0) : Prop :=
  p.return_number < 8 ∧ p.number_of_returns_of_given_pulse < 8 ∧
  p.intensity < 2 ^ 16 ∧ p.classification < 2 ^ 8 ∧ p.user_data < 2 ^ 8 ∧
  p.point_source_id < 2 ^ 16 ∧
  -(2 ^ 31) ≤ p.x ∧ p.x < 2 ^ 31 ∧ -(2 ^ 31) ≤ p.y ∧ p.y < 2 ^ 31 ∧
  -(2 ^ 31) ≤ p.z ∧ p.z < 2 ^ 31 ∧
  -(2 ^ 7) ≤ p.scan_angle_rank ∧ p.scan_angle_rank < 2 ^ 7

instance (p : Point0) : Decidable (WfPoint p) := by
  unfold WfPoint; exact inferInstance

theorem bit_fields_to_byte_lt (p : Point0) : p.bit_fields_to_byte < 256 := by
  unfold Point0.bit_fields_to_byte
  rcases p.edge_of_flight_line <;> rcases p.scan_direction_flag <;> simp <;> omega

theorem byte_mod8 (p : Point0) (h : p.return_number < 8) :
    p.bit_fields_to_byte % 8 = p.return_number := by
  unfold Point0.bit_fields_to_byte
  rcases p.edge_of_flight_line <;> rcases p.scan_direction_flag <;> simp <;> omega

theorem byte_div8 (p : Point0) (h : p.number_of_returns_of_given_pulse < 8) :
    p.bit_fields_to_byte / 8 % 8 = p.number_of_returns_of_given_pulse := by
  unfold Point0.bit_fields_to_byte
  rcases p.edge_of_flight_line <;> rcases p.scan_direction_flag <;> simp <;> omega

theorem byte_div64 (p : Point0) :
    p.bit_fields_to_byte / 64 % 2 = cond p.scan_direction_flag 1 0 := by
  unfold Point0.bit_fields_to_byte
  have h1 : p.number_of_returns_of_given_pulse % 8 < 8 := Nat.mod_lt _ (by omega)
  have h2 : p.return_number % 8 < 8 := Nat.mod_lt _ (by omega)
  rcases p.edge_of_flight_line <;> rcases p.scan_direction_flag <;> simp <;> omega

theorem byte_div128 (p : Point0) :
    p.bit_fields_to_byte / 128 % 2 = cond p.edge_of_flight_line 1 0 := by
  unfold Point0.bit_fields_to_byte
  have h1 : p.number_of_returns_of_given_pulse % 8 < 8 := Nat.mod_lt _ (by omega)
  have h2 : p.return_number % 8 < 8 := Nat.mod_lt _ (by omega)
  rcases p.edge_of_flight_line <;> rcases p.scan_direction_flag <;> simp <;> omega

/-- Unpacking the packed byte of a wellformed point recovers its four
sub-fields. -/
theorem populate_bit_fields_of_byte (q p : Point0)
    (hr : p.return_number < 8) (hn : p.number_of_returns_of_given_pulse < 8) :
    q.populate_bit_fields_from p.bit_fields_to_byte =
      { q with
        return_number := p.return_number,
        number_of_returns_of_given_pulse := p.number_of_returns_of_given_pulse,
        scan_direction_flag := p.scan_direction_flag,
        edge_of_flight_line := p.edge_of_flight_line } := by
  unfold Point0.populate_bit_fields_from
  rw [byte_mod8 p hr, byte_div8 p hn, byte_div64, byte_div128]
  rcases hs : p.scan_direction_flag <;> rcases he : p.edge_of_flight_line <;> simp

/-- `set_fields_from` of a wellformed point is that point. -/
theorem set_fields_from_self (q p : Point0) (hp : WfPoint p) :
    Point0.set_fields_from q p = p := by
  obtain ⟨hr, hn, _⟩ := hp
  unfold Point0.set_fields_from
  rw [populate_bit_fields_of_byte _ p hr hn]

/-- On wellformed points, equality of packed bytes forces equality of the
four sub-fields. -/
theorem byte_eq_iff_fields_eq (p q : Point0) (hp : WfPoint p) (hq : WfPoint q) :
    p.bit_fields_to_byte = q.bit_fields_to_byte ↔
      (p.return_number = q.return_number ∧
       p.number_of_returns_of_given_pulse = q.number_of_returns_of_given_pulse ∧
       p.scan_direction_flag = q.scan_direction_flag ∧
       p.edge_of_flight_line = q.edge_of_flight_line) := by
  constructor
  · intro h
    refine ⟨?_, ?_, ?_, ?_⟩
    · rw [← byte_mod8 p hp.1, ← byte_mod8 q hq.1, h]
    · rw [← byte_div8 p hp.2.1, ← byte_div8 q hq.2.1, h]
    · have hp64 := byte_div64 p
      have hq64 := byte_div64 q
      rw [h, hq64] at hp64
      rcases hps : p.scan_direction_flag <;> rcases hqs : q.scan_direction_flag <;>
        simp_all
    · have hp128 := byte_div128 p
      have hq128 := byte_div128 q
      rw [h, hq128] at hp128
      rcases hpe : p.edge_of_flight_line <;> rcases hqe : q.edge_of_flight_line <;>
        simp_all
  · intro ⟨h1, h2, h3, h4⟩
    unfold Point0.bit_fields_to_byte
    rw [h1, h2, h3, h4]

/-- `v1::median_diff`: find median difference from 3 preceding differences
(the exact comparison cascade of the source). -/
def median_diff (d0 d1 d2 : Int) : Int :=
  if d0 < d1 then
    if d1 < d2 then d1
    else if d0 < d2 then d2
    else d0
  else
    if d0 < d2 then d0
    else if d1 < d2 then d2
    else d1

/-- The three inputs, stably sorted (for the phrasing of the median claim). -/
def sorted3 (a b c : Int) : List Int :=
  List.insertionSort (· ≤ ·) [a, b, c]

/-- Failure modes of the embedded codec operations: `panic` is a Rust
`panic!` (fail fast), `oob` is an out-of-bounds unchecked buffer access,
`eof` is the symbol/byte source running dry (an I/O error). -/
inductive CodecErr where
  | panic
  | oob
  | eof
deriving DecidableEq, Repr

/-- Modelled from the spec: the correction-bit count `k` reported by the
integer compressor / decompressor after coding a residual
(`IntegerCompressor::k` lives in `src/compressors.rs`, outside the provided
source). The spec requires a deterministic non-negative value `≤ 32`
derived from the width of the last coded residual. -/
def kOf (r : Int) : Nat := if r = 0 then 0 else min 32 (Nat.log2 r.natAbs + 1)

/-- Modelled from the spec: `IntegerCompressor::compress(encoder, pred,
actual, context)` "emits residual actual − prediction" through the
arithmetic encoder; the context selects internal probability models and
does not alter the coded value. The emitted token is the residual. -/
def icCompress (pred actual : Int) (ctx : Nat) : Int := actual - pred

/-- Modelled from the spec: `IntegerDecompressor::decompress(decoder, pred,
context) → actual` recovers the value whose residual was emitted, and the
correction-bit count `k` of that residual. -/
def icDecompress (pred : Int) (ctx : Nat) (st : List Int) :
    Except CodecErr (Nat × Int × List Int) :=
  match st with
  | [] => .error .eof
  | r :: rest => .ok (kOf r, pred + r, rest)

/-- Modelled from the spec: `ArithmeticEncoder::encode_symbol(model, sym)`.
The arithmetic coder pair is a faithful channel (the decoder recovers the
symbols in emission order), so a coded symbol is its own token; `model` is
the index of the adaptive probability model used and does not alter the
recovered value. -/
def encodeSymbol (model : Nat) (sym : Nat) : Int := (sym : Int)

/-- Modelled from the spec: `ArithmeticDecoder::decode_symbol(model) → sym`. -/
def decodeSymbol (model : Nat) (st : List Int) :
    Except CodecErr (Nat × List Int) :=
  match st with
  | [] => .error .eof
  | s :: rest => .ok (s.toNat, rest)

/-- Modelled from the spec (§4.3): `utils::StreamingMedian` is a 5-element
rolling window over signed integers starting from all zeros; `add`
overwrites the oldest sample. -/
def smInit : List Int := List.replicate 5 0

/-- Modelled from the spec: `StreamingMedian::add(v)` overwrites the oldest
sample. -/
def smAdd (w : List Int) (v : Int) : List Int := w.drop 1 ++ [v]

/-- Modelled from the spec: `StreamingMedian::get()` returns the current
median of the 5-element window. -/
def smGet (w : List Int) : Int := (List.insertionSort (· ≤ ·) w).getD 2 0

/-- Modelled from the spec: `utils::u32_zero_bit k` returns `k & ~1` (clear
the least significant bit), rendered as `k - k % 2`. -/
def u32_zero_bit (k : Nat) : Nat := k - k % 2

/-- v1 `dy` context: `if k_bits < 19 { k_bits } else { 19 }`. -/
def v1DyCtx (k : Nat) : Nat := if k < 19 then k else 19

/-- v1 `dz` context: the same clamp applied to the averaged bit count. -/
def v1DzCtx (k : Nat) : Nat := if k < 19 then k else 19

/-- v1 scan-angle-rank context: `(k_bits < 3) as u32`. -/
def v1SarCtx (k : Nat) : Nat := if k < 3 then 1 else 0

/-- v2 `dx` context: `(n == 1) as u32`. -/
def v2DxCtx (n : Nat) : Nat := if n = 1 then 1 else 0

/-- v2 `dy` context:
`(n == 1) as u32 + if k_bits < 20 { u32_zero_bit(k_bits) } else { 20 }`. -/
def v2DyCtx (n k : Nat) : Nat :=
  (if n = 1 then 1 else 0) + if k < 20 then u32_zero_bit k else 20

/-- v2 `z` context:
`(n == 1) as u32 + if k_bits < 18 { u32_zero_bit(k_bits) } else { 18 }`. -/
def v2ZCtx (n k : Nat) : Nat :=
  (if n = 1 then 1 else 0) + if k < 18 then u32_zero_bit k else 18

/-- v2 intensity context: `if m < 3 { m as u32 } else { 3 }`. -/
def v2IntensityCtx (m : Nat) : Nat := if m < 3 then m else 3

/-- v1: the 6-bit `changed_values` bitmap computed by
`v1::LasPoint0Compressor::compress_field_with`: bit 5 intensity, bit 4 the
packed `bit_fields` byte, bit 3 classification, bit 2 scan-angle-rank,
bit 1 user-data, bit 0 point-source-id (`!=` comparisons rendered as
propositional inequality; the shifted flag bits are disjoint, rendered as a
sum). -/
def v1ChangedValues (last cur : Point0) : Nat :=
  (if last.intensity ≠ cur.intensity then 1 else 0) * 32 +
  (if last.bit_fields_to_byte ≠ cur.bit_fields_to_byte then 1 else 0) * 16 +
  (if last.classification ≠ cur.classification then 1 else 0) * 8 +
  (if last.scan_angle_rank ≠ cur.scan_angle_rank then 1 else 0) * 4 +
  (if last.user_data ≠ cur.user_data then 1 else 0) * 2 +
  (if last.point_source_id ≠ cur.point_source_id then 1 else 0)

/-- Mutable state shared by `v1::LasPoint0Compressor` and
`v1::LasPoint0Decompressor` (the two Rust structs hold exactly these data
fields; the integer coders and arithmetic models are stateless here, their
adaptive state hidden behind the faithful-channel abstraction). -/
structure V1State where
  last_point : Point0
  last_x_diffs : Nat → Int
  last_y_diffs : Nat → Int
  last_incr : Nat

/-- `v1::LasPoint0Compressor::new` / `v1::LasPoint0Decompressor::new`:
default point, zeroed difference windows, `last_incr = 0`. -/
def v1NewState : V1State :=
  { last_point := Point0.default, last_x_diffs := fun _ => 0,
    last_y_diffs := fun _ => 0, last_incr := 0 }

/-- v1 `init_first_point` (both directions): the first point travels raw
through the byte sink/source and is recorded via `set_fields_from`. -/
def v1InitFirstPoint (p : Point0) : V1State :=
  { v1NewState with last_point := Point0.set_fields_from Point0.default p }

/-- `if (changed_values & 32) != 0` block of the v1 compressor
(intensity). -/
def v1EncIntensity (cv : Nat) (last cur : Point0) : List Int :=
  if cv / 32 % 2 ≠ 0 then
    [icCompress (last.intensity : Int) (cur.intensity : Int) 0]
  else []

/-- `if (changed_values & 16) != 0` block of the v1 compressor (packed
bit-field byte on the 256-symbol model selected by the previous byte). -/
def v1EncBitFields (cv : Nat) (last cur : Point0) : List Int :=
  if cv / 16 % 2 ≠ 0 then
    [encodeSymbol last.bit_fields_to_byte cur.bit_fields_to_byte]
  else []

/-- `if (changed_values & 8) != 0` block of the v1 compressor
(classification). -/
def v1EncClassification (cv : Nat) (last cur : Point0) : List Int :=
  if cv / 8 % 2 ≠ 0 then
    [encodeSymbol last.classification cur.classification]
  else []

/-- `if (changed_values & 4) != 0` block of the v1 compressor
(scan-angle-rank through the 8-bit integer coder). -/
def v1EncScanAngleRank (cv k_bits : Nat) (last cur : Point0) : List Int :=
  if cv / 4 % 2 ≠ 0 then
    [icCompress last.scan_angle_rank cur.scan_angle_rank (v1SarCtx k_bits)]
  else []

/-- `if (changed_values & 2) != 0` block of the v1 compressor (user data). -/
def v1EncUserData (cv : Nat) (last cur : Point0) : List Int :=
  if cv / 2 % 2 ≠ 0 then
    [encodeSymbol last.user_data cur.user_data]
  else []

/-- `if (changed_values & 1) != 0` block of the v1 compressor
(point-source-id). -/
def v1EncPointSourceId (cv : Nat) (last cur : Point0) : List Int :=
  if cv % 2 ≠ 0 then
    [icCompress (last.point_source_id : Int) (cur.point_source_id : Int) 0]
  else []

/-- The `if changed_values != 0 { ... }` body of the v1 compressor. -/
def v1EncFields (cv k_bits : Nat) (last cur : Point0) : List Int :=
  if cv ≠ 0 then
    v1EncIntensity cv last cur ++ v1EncBitFields cv last cur ++
    v1EncClassification cv last cur ++ v1EncScanAngleRank cv k_bits last cur ++
    v1EncUserData cv last cur ++ v1EncPointSourceId cv last cur
  else []

/-- `v1::LasPoint0Compressor::compress_field_with`: returns the updated
state and the tokens pushed through the arithmetic encoder, in emission
order. -/
def v1CompressStep (s : V1State) (cur : Point0) : V1State × List Int :=
  let median_x := median_diff (s.last_x_diffs 0) (s.last_x_diffs 1) (s.last_x_diffs 2)
  let median_y := median_diff (s.last_y_diffs 0) (s.last_y_diffs 1) (s.last_y_diffs 2)
  let x_diff := wrap32 (cur.x - s.last_point.x)
  let y_diff := wrap32 (cur.y - s.last_point.y)
  let tx := icCompress median_x x_diff 0
  let k_bits := kOf tx
  let ty := icCompress median_y y_diff (v1DyCtx k_bits)
  let k_bits := (k_bits + kOf ty) / 2
  let tz := icCompress s.last_point.z cur.z (v1DzCtx k_bits)
  let cv := v1ChangedValues s.last_point cur
  ({ last_point := Point0.set_fields_from s.last_point cur,
     last_x_diffs := updf s.last_x_diffs s.last_incr x_diff,
     last_y_diffs := updf s.last_y_diffs s.last_incr y_diff,
     last_incr := if s.last_incr + 1 > 2 then 0 else s.last_incr + 1 },
   [tx, ty, tz, encodeSymbol 0 cv] ++ v1EncFields cv k_bits s.last_point cur)

/-- `if (changed_value & 32) != 0` block of the v1 decompressor
(intensity; the decompressed `i32` is stored `as u16`). -/
def v1DecIntensity (cv : Nat) (p : Point0) (st : List Int) :
    Except CodecErr (Point0 × List Int) :=
  if cv / 32 % 2 ≠ 0 then
    match icDecompress (p.intensity : Int) 0 st with
    | .error e => .error e
    | .ok (_, v, st) => .ok ({ p with intensity := toU16 v }, st)
  else .ok (p, st)

/-- `if (changed_value & 16) != 0` block of the v1 decompressor (packed
bit-field byte; the decoded `u32` symbol is stored `as u8` and unpacked). -/
def v1DecBitFields (cv : Nat) (p : Point0) (st : List Int) :
    Except CodecErr (Point0 × List Int) :=
  if cv / 16 % 2 ≠ 0 then
    match decodeSymbol p.bit_fields_to_byte st with
    | .error e => .error e
    | .ok (sym, st) => .ok (p.populate_bit_fields_from (sym % 256), st)
  else .ok (p, st)

/-- `if (changed_value & 8) != 0` block of the v1 decompressor
(classification). -/
def v1DecClassification (cv : Nat) (p : Point0) (st : List Int) :
    Except CodecErr (Point0 × List Int) :=
  if cv / 8 % 2 ≠ 0 then
    match decodeSymbol p.classification st with
    | .error e => .error e
    | .ok (sym, st) => .ok ({ p with classification := sym % 256 }, st)
  else .ok (p, st)

/-- `if (changed_value & 4) != 0` block of the v1 decompressor
(scan-angle-rank; the decompressed `i32` is stored `as i8`). -/
def v1DecScanAngleRank (cv k_bits : Nat) (p : Point0) (st : List Int) :
    Except CodecErr (Point0 × List Int) :=
  if cv / 4 % 2 ≠ 0 then
    match icDecompress p.scan_angle_rank (v1SarCtx k_bits) st with
    | .error e => .error e
    | .ok (_, v, st) => .ok ({ p with scan_angle_rank := wrap8 v }, st)
  else .ok (p, st)

/-- `if (changed_value & 2) != 0` block of the v1 decompressor (user
data). -/
def v1DecUserData (cv : Nat) (p : Point0) (st : List Int) :
    Except CodecErr (Point0 × List Int) :=
  if cv / 2 % 2 ≠ 0 then
    match decodeSymbol p.user_data st with
    | .error e => .error e
    | .ok (sym, st) => .ok ({ p with user_data := sym % 256 }, st)
  else .ok (p, st)

/-- `if (changed_value & 1) != 0` block of the v1 decompressor
(point-source-id, stored `as u16`). -/
def v1DecPointSourceId (cv : Nat) (p : Point0) (st : List Int) :
    Except CodecErr (Point0 × List Int) :=
  if cv % 2 ≠ 0 then
    match icDecompress (p.point_source_id : Int) 0 st with
    | .error e => .error e
    | .ok (_, v, st) => .ok ({ p with point_source_id := toU16 v }, st)
  else .ok (p, st)

/-- The `if changed_value != 0 { ... }` body of the v1 decompressor. -/
def v1DecFields (cv k_bits : Nat) (p : Point0) (st : List Int) :
    Except CodecErr (Point0 × List Int) :=
  if cv ≠ 0 then
    match v1DecIntensity cv p st with
    | .error e => .error e
    | .ok (p, st) =>
      match v1DecBitFields cv p st with
      | .error e => .error e
      | .ok (p, st) =>
        match v1DecClassification cv p st with
        | .error e => .error e
        | .ok (p, st) =>
          match v1DecScanAngleRank cv k_bits p st with
          | .error e => .error e
          | .ok (p, st) =>
            match v1DecUserData cv p st with
            | .error e => .error e
            | .ok (p, st) => v1DecPointSourceId cv p st
  else .ok (p, st)

/-- `v1::LasPoint0Decompressor::decompress_field_with`: consumes tokens
from the arithmetic decoder, returns the updated state, the decoded point
(as delivered through `set_fields_from` into the caller's record) and the
remaining stream. State writes are gathered at the end; they touch the same
fields the source mutates in place. -/
def v1DecompressStep (s : V1State) (st : List Int) :
    Except CodecErr (V1State × Point0 × List Int) :=
  let median_x := median_diff (s.last_x_diffs 0) (s.last_x_diffs 1) (s.last_x_diffs 2)
  let median_y := median_diff (s.last_y_diffs 0) (s.last_y_diffs 1) (s.last_y_diffs 2)
  match icDecompress median_x 0 st with
  | .error e => .error e
  | .ok (k1, x_diff, st) =>
    match icDecompress median_y (v1DyCtx k1) st with
    | .error e => .error e
    | .ok (k2, y_diff, st) =>
      let k_bits := (k1 + k2) / 2
      match icDecompress s.last_point.z (v1DzCtx k_bits) st with
      | .error e => .error e
      | .ok (_, zv, st) =>
        match decodeSymbol 0 st with
        | .error e => .error e
        | .ok (cv, st) =>
          match v1DecFields cv k_bits s.last_point st with
          | .error e => .error e
          | .ok (p, st) =>
            let p := { p with
                       x := wrap32 (s.last_point.x + x_diff),
                       y := wrap32 (s.last_point.y + y_diff),
                       z := wrap32 zv }
            .ok ({ last_point := p,
                   last_x_diffs := updf s.last_x_diffs s.last_incr x_diff,
                   last_y_diffs := updf s.last_y_diffs s.last_incr y_diff,
                   last_incr := if s.last_incr + 1 > 2 then 0 else s.last_incr + 1 },
                 Point0.set_fields_from Point0.default p, st)

theorem intToNat_cast (n : Nat) : (n : Int).toNat = n := rfl

theorem intAddSubSelf (a b : Int) : a + (b - a) = b := by ring

/-- Structure eta for `Point0` (used to collapse rebuilt records). -/
theorem point0_eta (p : Point0) :
    Point0.mk p.x p.y p.z p.intensity p.number_of_returns_of_given_pulse
      p.scan_direction_flag p.edge_of_flight_line p.return_number
      p.classification p.scan_angle_rank p.user_data p.point_source_id = p := rfl

/-- Round trip of the six conditional v1 field blocks: decoding the tokens
emitted for `changed_values` merges exactly the non-coordinate fields of
the current point into the running point. -/
theorem v1_rt_fields (cv k_bits : Nat) (last cur : Point0) (rest : List Int)
    (hcur : WfPoint cur) (hlast : WfPoint last)
    (hcv : cv = v1ChangedValues last cur) :
    v1DecFields cv k_bits last (v1EncFields cv k_bits last cur ++ rest) =
      .ok ({ cur with x := last.x, y := last.y, z := last.z }, rest) := by
  subst hcv
  obtain ⟨hrn, hnn, hint, hcl, hud, hpsid, _, _, _, _, _, _, hs1, hs2⟩ := hcur
  have rI : toU16 ((last.intensity : Int) +
      ((cur.intensity : Int) - (last.intensity : Int))) = cur.intensity := by
    unfold toU16; omega
  have rS : wrap8 (last.scan_angle_rank +
      (cur.scan_angle_rank - last.scan_angle_rank)) = cur.scan_angle_rank := by
    unfold wrap8; omega
  have rP : toU16 ((last.point_source_id : Int) +
      ((cur.point_source_id : Int) - (last.point_source_id : Int))) =
      cur.point_source_id := by
    unfold toU16; omega
  have rC : cur.classification % 256 = cur.classification := Nat.mod_eq_of_lt hcl
  have rU : cur.user_data % 256 = cur.user_data := Nat.mod_eq_of_lt hud
  have rPop : ∀ q : Point0,
      q.populate_bit_fields_from (cur.bit_fields_to_byte % 256) =
        { q with
          return_number := cur.return_number,
          number_of_returns_of_given_pulse := cur.number_of_returns_of_given_pulse,
          scan_direction_flag := cur.scan_direction_flag,
          edge_of_flight_line := cur.edge_of_flight_line } := by
    intro q
    rw [Nat.mod_eq_of_lt (bit_fields_to_byte_lt cur)]
    exact populate_bit_fields_of_byte q cur hrn hnn
  have hBf : last.bit_fields_to_byte = cur.bit_fields_to_byte →
      (last.return_number = cur.return_number ∧
       last.number_of_returns_of_given_pulse = cur.number_of_returns_of_given_pulse ∧
       last.scan_direction_flag = cur.scan_direction_flag ∧
       last.edge_of_flight_line = cur.edge_of_flight_line) := fun hb =>
    (byte_eq_iff_fields_eq last cur hlast
      ⟨hrn, hnn, hint, hcl, hud, hpsid, by omega, by omega, by omega, by omega,
       by omega, by omega, hs1, hs2⟩).mp hb
  by_cases hI : last.intensity = cur.intensity <;>
    by_cases hB : last.bit_fields_to_byte = cur.bit_fields_to_byte <;>
    by_cases hC : last.classification = cur.classification <;>
    by_cases hS : last.scan_angle_rank = cur.scan_angle_rank <;>
    by_cases hU : last.user_data = cur.user_data <;>
    by_cases hP : last.point_source_id = cur.point_source_id <;>
  · simp_all [v1DecFields, v1EncFields, v1ChangedValues,
      v1DecIntensity, v1EncIntensity, v1DecBitFields, v1EncBitFields,
      v1DecClassification, v1EncClassification,
      v1DecScanAngleRank, v1EncScanAngleRank,
      v1DecUserData, v1EncUserData, v1DecPointSourceId, v1EncPointSourceId,
      icCompress, icDecompress, encodeSymbol, decodeSymbol,
      intToNat_cast, intAddSubSelf, Point0.ext_iff]

set_option linter.unusedVariables false

/-- One v1 compress/decompress round trip step: a decompressor in the same
state as the compressor consumes exactly the emitted tokens, reproduces the
current point, and reaches the compressor's new state. -/
theorem v1_step_rt (s : V1State) (cur : Point0) (rest : List Int)
    (hcur : WfPoint cur) (hlast : WfPoint s.last_point) :
    v1DecompressStep s ((v1CompressStep s cur).2 ++ rest) =
      .ok ((v1CompressStep s cur).1, cur, rest) := by
  have hX : wrap32 (s.last_point.x + wrap32 (cur.x - s.last_point.x)) = cur.x := by
    have h1 := hcur.2.2.2.2.2.2.1
    have h2 := hcur.2.2.2.2.2.2.2.1
    unfold wrap32; omega
  have hY : wrap32 (s.last_point.y + wrap32 (cur.y - s.last_point.y)) = cur.y := by
    have h1 := hcur.2.2.2.2.2.2.2.2.1
    have h2 := hcur.2.2.2.2.2.2.2.2.2.1
    unfold wrap32; omega
  have hZ : wrap32 cur.z = cur.z :=
    wrap32_eq_self hcur.2.2.2.2.2.2.2.2.2.2.1 hcur.2.2.2.2.2.2.2.2.2.2.2.1
  unfold v1CompressStep v1DecompressStep
  simp only [icCompress, icDecompress, encodeSymbol, decodeSymbol,
    List.cons_append, List.nil_append, List.append_assoc, intToNat_cast,
    intAddSubSelf]
  rw [v1_rt_fields (v1ChangedValues s.last_point cur) _ s.last_point cur _
    hcur hlast rfl]
  simp only [hX, hY, hZ, point0_eta, set_fields_from_self _ cur hcur]

/-- Compress a list of (non-first) points, concatenating the emitted
tokens. -/
def v1EncodeList (s : V1State) : List Point0 → V1State × List Int
  | [] => (s, [])
  | p :: ps =>
    let r1 := v1CompressStep s p
    let r2 := v1EncodeList r1.1 ps
    (r2.1, r1.2 ++ r2.2)

/-- Decompress `n` (non-first) points from the token stream. -/
def v1DecodeList (s : V1State) : Nat → List Int →
    Except CodecErr (V1State × List Point0 × List Int)
  | 0, st => .ok (s, [], st)
  | n + 1, st =>
    match v1DecompressStep s st with
    | .error e => .error e
    | .ok (s1, p, st1) =>
      match v1DecodeList s1 n st1 with
      | .error e => .error e
      | .ok (s2, ps, st2) => .ok (s2, p :: ps, st2)

theorem v1_list_rt (ps : List Point0) (s : V1State) (rest : List Int)
    (hwf : ∀ p ∈ ps, WfPoint p) (hlast : WfPoint s.last_point) :
    v1DecodeList s ps.length ((v1EncodeList s ps).2 ++ rest) =
      .ok ((v1EncodeList s ps).1, ps, rest) := by
  induction ps generalizing s rest with
  | nil => simp [v1EncodeList, v1DecodeList]
  | cons p ps ih =>
    have hp : WfPoint p := hwf p (by simp)
    have hnext : WfPoint (v1CompressStep s p).1.last_point := by
      unfold v1CompressStep
      simp only [set_fields_from_self _ p hp]
      exact hp
    simp only [v1EncodeList, v1DecodeList, List.length_cons, List.append_assoc]
    rw [v1_step_rt s p _ hp hlast]
    simp only []
    rw [ih (v1CompressStep s p).1 rest (fun q hq => hwf q (by simp [hq])) hnext]

/-- Full v1 encoding of a point sequence: `init_first_point` on `p0`
(written raw to the byte sink), then `compress_field_with` on each later
point; the result is the arithmetic-coder token stream. -/
def v1Compressed (p0 : Point0) (ps : List Point0) : List Int :=
  (v1EncodeList (v1InitFirstPoint p0) ps).2

/-- Full v1 decoding: `init_first_point` reads back the raw first point,
then `decompress_field_with` for each of `n` further points. -/
def v1Decompressed (p0 : Point0) (n : Nat) (st : List Int) :
    Except CodecErr (List Point0) :=
  match v1DecodeList (v1InitFirstPoint p0) n st with
  | .error e => .error e
  | .ok (_, ps, _) => .ok (Point0.set_fields_from Point0.default p0 :: ps)

/-- v2 `Point10ChangedValues::from_points`: bit 5 is the OR of the four
sub-field inequalities (each `(a ^ b) != 0` test rendered as propositional
inequality), bit 4 compares the *given* `last_intensity` against the
current intensity, bits 3..0 are classification, scan-angle-rank,
user-data and point-source-id; the disjoint shifted flags are summed. -/
def point10ChangedValues (current last : Point0) (last_intensity : Nat) : Nat :=
  (if last.return_number ≠ current.return_number ∨
      last.number_of_returns_of_given_pulse ≠
        current.number_of_returns_of_given_pulse ∨
      last.scan_direction_flag ≠ current.scan_direction_flag ∨
      last.edge_of_flight_line ≠ current.edge_of_flight_line
   then 1 else 0) * 32 +
  (if last_intensity ≠ current.intensity then 1 else 0) * 16 +
  (if last.classification ≠ current.classification then 1 else 0) * 8 +
  (if last.scan_angle_rank ≠ current.scan_angle_rank then 1 else 0) * 4 +
  (if last.user_data ≠ current.user_data then 1 else 0) * 2 +
  (if last.point_source_id ≠ current.point_source_id then 1 else 0)

/-- v2 scan-angle symbol:
`(current.scan_angle_rank - last.scan_angle_rank) as u8` — the wrapping
`i8` subtraction reinterpreted as an unsigned byte is the low 8 bits of the
exact difference. -/
def v2ScanAngleSymbol (cur last : Int) : Nat := toU8 (cur - last)

/-- v2 scan-angle decode: `val + last_point.scan_angle_rank` on `i8`, where
`val` is the decoded symbol `as i8`. -/
def v2ScanAngleDecode (sym : Nat) (last : Int) : Int :=
  wrap8 (wrap8 (sym : Int) + last)

/-- v2 scan-angle model selection: `scan_angle_rank[scan_direction_flag as
usize]`. -/
def v2ScanAngleModelIndex (sdf : Bool) : Nat := cond sdf 1 0

/-- Mutable state shared by `v2::LasPoint0Compressor` and
`v2::LasPoint0Decompressor` (struct `Common` plus `last_point`; integer
coders and arithmetic models are stateless in this embedding). The
fixed-size arrays `last_intensity[16]`, the 16 streaming medians and
`last_height[8]` are modelled as total functions. -/
structure V2State where
  last_point : Point0
  last_intensity : Nat → Nat
  last_x_diff_median : Nat → List Int
  last_y_diff_median : Nat → List Int
  last_height : Nat → Int

/-- `v2::...::new` / `Common::new`: zeroed state. -/
def v2NewState : V2State :=
  { last_point := Point0.default, last_intensity := fun _ => 0,
    last_x_diff_median := fun _ => smInit, last_y_diff_median := fun _ => smInit,
    last_height := fun _ => 0 }

/-- `v2::LasPoint0Compressor::init_first_point`: write the raw point and
record it via `set_fields_from`; the recorded intensity is NOT reset. -/
def v2CompressorInitFirstPoint (p : Point0) : V2State :=
  { v2NewState with last_point := Point0.set_fields_from Point0.default p }

/-- `v2::LasPoint0Decompressor::init_first_point`: read the raw point,
record it via `set_fields_from`, then set `last_point.intensity = 0`. -/
def v2DecompressorInitFirstPoint (p : Point0) : V2State :=
  { v2NewState with
    last_point :=
      { Point0.set_fields_from Point0.default p with intensity := 0 } }

/-- v2 compressor `if changed_values.bit_fields_changed()` block. -/
def v2EncBitFields (cv : Nat) (last cur : Point0) : List Int :=
  if cv / 32 % 2 ≠ 0 then
    [encodeSymbol last.bit_fields_to_byte cur.bit_fields_to_byte]
  else []

/-- v2 compressor `if changed_values.intensity_changed()` block (predicted
from `last_intensity[m]`, context `min(m, 3)`). -/
def v2EncIntensity (cv m : Nat) (lastInt : Nat → Nat) (cur : Point0) : List Int :=
  if cv / 16 % 2 ≠ 0 then
    [icCompress ((lastInt m : Nat) : Int) (cur.intensity : Int) (v2IntensityCtx m)]
  else []

/-- v2 compressor `if changed_values.classification_changed()` block. -/
def v2EncClassification (cv : Nat) (last cur : Point0) : List Int :=
  if cv / 8 % 2 ≠ 0 then
    [encodeSymbol last.classification cur.classification]
  else []

/-- v2 compressor `if changed_values.scan_angle_rank_changed()` block. -/
def v2EncScanAngleRank (cv : Nat) (last cur : Point0) : List Int :=
  if cv / 4 % 2 ≠ 0 then
    [encodeSymbol (v2ScanAngleModelIndex cur.scan_direction_flag)
       (v2ScanAngleSymbol cur.scan_angle_rank last.scan_angle_rank)]
  else []

/-- v2 compressor `if changed_values.user_data_changed()` block. -/
def v2EncUserData (cv : Nat) (last cur : Point0) : List Int :=
  if cv / 2 % 2 ≠ 0 then
    [encodeSymbol last.user_data cur.user_data]
  else []

/-- v2 compressor `if changed_values.point_source_id_changed()` block. -/
def v2EncPointSourceId (cv : Nat) (last cur : Point0) : List Int :=
  if cv % 2 ≠ 0 then
    [icCompress (last.point_source_id : Int) (cur.point_source_id : Int) 0]
  else []

/-- `v2::LasPoint0Compressor::compress_field_with` (parameterized by the
`NUMBER_RETURN_MAP` / `NUMBER_RETURN_LEVEL` tables of `las::utils`, which
are outside the provided source). Emission order: changed-values symbol,
conditional field symbols, then x, y, z. -/
def v2CompressStep (nrMap nrLevel : Nat → Nat → Nat) (s : V2State)
    (cur : Point0) : V2State × List Int :=
  let r := cur.return_number
  let n := cur.number_of_returns_of_given_pulse
  let m := nrMap n r
  let l := nrLevel n r
  let cv := point10ChangedValues cur s.last_point (s.last_intensity m)
  let fieldToks :=
    v2EncBitFields cv s.last_point cur ++
    v2EncIntensity cv m s.last_intensity cur ++
    v2EncClassification cv s.last_point cur ++
    v2EncScanAngleRank cv s.last_point cur ++
    v2EncUserData cv s.last_point cur ++
    v2EncPointSourceId cv s.last_point cur
  let lastInt1 :=
    if cv / 16 % 2 ≠ 0 then updf s.last_intensity m cur.intensity
    else s.last_intensity
  let medx := smGet (s.last_x_diff_median m)
  let dx := wrap32 (cur.x - s.last_point.x)
  let tx := icCompress medx dx (v2DxCtx n)
  let k1 := kOf tx
  let medy := smGet (s.last_y_diff_median m)
  let dy := wrap32 (cur.y - s.last_point.y)
  let ty := icCompress medy dy (v2DyCtx n k1)
  let k2 := (k1 + kOf ty) / 2
  let tz := icCompress (s.last_height l) cur.z (v2ZCtx n k2)
  ({ last_point := Point0.set_fields_from s.last_point cur,
     last_intensity := lastInt1,
     last_x_diff_median := updf s.last_x_diff_median m
       (smAdd (s.last_x_diff_median m) dx),
     last_y_diff_median := updf s.last_y_diff_median m
       (smAdd (s.last_y_diff_median m) dy),
     last_height := updf s.last_height l cur.z },
   [encodeSymbol 0 cv] ++ fieldToks ++ [tx, ty, tz])

/-- v2 decompressor `if changed_value.bit_fields_changed()` block: decode
the new packed byte on the model of the previous byte and unpack it
*before* `m` and `l` are computed. -/
def v2DecBitFields (cv : Nat) (p : Point0) (st : List Int) :
    Except CodecErr (Point0 × List Int) :=
  if cv / 32 % 2 ≠ 0 then
    match decodeSymbol p.bit_fields_to_byte st with
    | .error e => .error e
    | .ok (sym, st) => .ok (p.populate_bit_fields_from (sym % 256), st)
  else .ok (p, st)

/-- v2 decompressor intensity handling: when changed, decompress against
`last_intensity[m]` and write both `last_point.intensity` and
`last_intensity[m]`; when unchanged (but some other field changed), copy
`last_intensity[m]` into `last_point.intensity`. -/
def v2DecIntensity (cv m : Nat) (lastInt : Nat → Nat) (p : Point0)
    (st : List Int) :
    Except CodecErr ((Point0 × (Nat → Nat)) × List Int) :=
  if cv / 16 % 2 ≠ 0 then
    match icDecompress ((lastInt m : Nat) : Int) (v2IntensityCtx m) st with
    | .error e => .error e
    | .ok (_, v, st) =>
      .ok (({ p with intensity := toU16 v }, updf lastInt m (toU16 v)), st)
  else .ok (({ p with intensity := lastInt m }, lastInt), st)

/-- v2 decompressor `if changed_value.classification_changed()` block. -/
def v2DecClassification (cv : Nat) (p : Point0) (st : List Int) :
    Except CodecErr (Point0 × List Int) :=
  if cv / 8 % 2 ≠ 0 then
    match decodeSymbol p.classification st with
    | .error e => .error e
    | .ok (sym, st) => .ok ({ p with classification := sym % 256 }, st)
  else .ok (p, st)

/-- v2 decompressor `if changed_value.scan_angle_rank_changed()` block. -/
def v2DecScanAngleRank (cv : Nat) (p : Point0) (st : List Int) :
    Except CodecErr (Point0 × List Int) :=
  if cv / 4 % 2 ≠ 0 then
    match decodeSymbol (v2ScanAngleModelIndex p.scan_direction_flag) st with
    | .error e => .error e
    | .ok (sym, st) =>
      .ok ({ p with scan_angle_rank := v2ScanAngleDecode sym p.scan_angle_rank },
           st)
  else .ok (p, st)

/-- v2 decompressor `if changed_value.user_data_changed()` block. -/
def v2DecUserData (cv : Nat) (p : Point0) (st : List Int) :
    Except CodecErr (Point0 × List Int) :=
  if cv / 2 % 2 ≠ 0 then
    match decodeSymbol p.user_data st with
    | .error e => .error e
    | .ok (sym, st) => .ok ({ p with user_data := sym % 256 }, st)
  else .ok (p, st)

/-- v2 decompressor `if changed_value.point_source_id_changed()` block. -/
def v2DecPointSourceId (cv : Nat) (p : Point0) (st : List Int) :
    Except CodecErr (Point0 × List Int) :=
  if cv % 2 ≠ 0 then
    match icDecompress (p.point_source_id : Int) 0 st with
    | .error e => .error e
    | .ok (_, v, st) => .ok ({ p with point_source_id := toU16 v }, st)
  else .ok (p, st)

/-- The `if changed_value.value != 0 { ... } else { ... }` part of the v2
decompressor: returns the updated non-coordinate fields, the (possibly
updated) `last_intensity` array and the bucket indices `m`, `l` computed
from the *updated* return geometry. -/
def v2DecChanged (nrMap nrLevel : Nat → Nat → Nat) (cv : Nat) (s : V2State)
    (st : List Int) :
    Except CodecErr ((Point0 × (Nat → Nat) × Nat × Nat) × List Int) :=
  if cv ≠ 0 then
    match v2DecBitFields cv s.last_point st with
    | .error e => .error e
    | .ok (p, st) =>
      let m := nrMap p.number_of_returns_of_given_pulse p.return_number
      let l := nrLevel p.number_of_returns_of_given_pulse p.return_number
      match v2DecIntensity cv m s.last_intensity p st with
      | .error e => .error e
      | .ok ((p, lastInt), st) =>
        match v2DecClassification cv p st with
        | .error e => .error e
        | .ok (p, st) =>
          match v2DecScanAngleRank cv p st with
          | .error e => .error e
          | .ok (p, st) =>
            match v2DecUserData cv p st with
            | .error e => .error e
            | .ok (p, st) =>
              match v2DecPointSourceId cv p st with
              | .error e => .error e
              | .ok (p, st) => .ok ((p, lastInt, m, l), st)
  else
    .ok ((s.last_point, s.last_intensity,
          nrMap s.last_point.number_of_returns_of_given_pulse
            s.last_point.return_number,
          nrLevel s.last_point.number_of_returns_of_given_pulse
            s.last_point.return_number), st)

/-- `v2::LasPoint0Decompressor::decompress_field_with`. -/
def v2DecompressStep (nrMap nrLevel : Nat → Nat → Nat) (s : V2State)
    (st : List Int) :
    Except CodecErr (V2State × Point0 × List Int) :=
  match decodeSymbol 0 st with
  | .error e => .error e
  | .ok (cv, st) =>
    match v2DecChanged nrMap nrLevel cv s st with
    | .error e => .error e
    | .ok ((p, lastInt, m, l), st) =>
      let n := p.number_of_returns_of_given_pulse
      match icDecompress (smGet (s.last_x_diff_median m)) (v2DxCtx n) st with
      | .error e => .error e
      | .ok (k1, xv, st) =>
        match icDecompress (smGet (s.last_y_diff_median m)) (v2DyCtx n k1) st with
        | .error e => .error e
        | .ok (k2, yv, st) =>
          match icDecompress (s.last_height l) (v2ZCtx n ((k1 + k2) / 2)) st with
          | .error e => .error e
          | .ok (_, zv, st) =>
            let p := { p with
                       x := wrap32 (p.x + xv),
                       y := wrap32 (p.y + yv),
                       z := wrap32 zv }
            .ok ({ last_point := p,
                   last_intensity := lastInt,
                   last_x_diff_median := updf s.last_x_diff_median m
                     (smAdd (s.last_x_diff_median m) xv),
                   last_y_diff_median := updf s.last_y_diff_median m
                     (smAdd (s.last_y_diff_median m) yv),
                   last_height := updf s.last_height l (wrap32 zv) },
                 Point0.set_fields_from Point0.default p, st)

/-- Correspondence between a v2 compressor state `c` and a v2 decompressor
state `d` feeding on its output: all state components agree except
`last_point.intensity`, which on the decompressor side always mirrors
`last_intensity[m]` of the current return geometry (the compressor never
reads its own `last_point.intensity`). -/
def V2Inv (nrMap : Nat → Nat → Nat) (c d : V2State) : Prop :=
  d.last_point.x = c.last_point.x ∧
  d.last_point.y = c.last_point.y ∧
  d.last_point.z = c.last_point.z ∧
  d.last_point.number_of_returns_of_given_pulse =
    c.last_point.number_of_returns_of_given_pulse ∧
  d.last_point.scan_direction_flag = c.last_point.scan_direction_flag ∧
  d.last_point.edge_of_flight_line = c.last_point.edge_of_flight_line ∧
  d.last_point.return_number = c.last_point.return_number ∧
  d.last_point.classification = c.last_point.classification ∧
  d.last_point.scan_angle_rank = c.last_point.scan_angle_rank ∧
  d.last_point.user_data = c.last_point.user_data ∧
  d.last_point.point_source_id = c.last_point.point_source_id ∧
  d.last_point.intensity = d.last_intensity
    (nrMap c.last_point.number_of_returns_of_given_pulse
      c.last_point.return_number) ∧
  d.last_intensity = c.last_intensity ∧
  d.last_x_diff_median = c.last_x_diff_median ∧
  d.last_y_diff_median = c.last_y_diff_median ∧
  d.last_height = c.last_height

/-- Digit extraction for the v2 changed-values bitmap. -/
theorem v2cv_digits (cur last : Point0) (li : Nat) :
    point10ChangedValues cur last li / 32 % 2 =
      (if last.return_number ≠ cur.return_number ∨
          last.number_of_returns_of_given_pulse ≠
            cur.number_of_returns_of_given_pulse ∨
          last.scan_direction_flag ≠ cur.scan_direction_flag ∨
          last.edge_of_flight_line ≠ cur.edge_of_flight_line
       then 1 else 0) ∧
    point10ChangedValues cur last li / 16 % 2 =
      (if li ≠ cur.intensity then 1 else 0) ∧
    point10ChangedValues cur last li / 8 % 2 =
      (if last.classification ≠ cur.classification then 1 else 0) ∧
    point10ChangedValues cur last li / 4 % 2 =
      (if last.scan_angle_rank ≠ cur.scan_angle_rank then 1 else 0) ∧
    point10ChangedValues cur last li / 2 % 2 =
      (if last.user_data ≠ cur.user_data then 1 else 0) ∧
    point10ChangedValues cur last li % 2 =
      (if last.point_source_id ≠ cur.point_source_id then 1 else 0) := by
  unfold point10ChangedValues
  split_ifs <;> omega

/-- After a v2 compression step the compressor state is in correspondence
with itself: the recorded intensity equals `last_intensity[m]` of the new
geometry. -/
theorem v2_step_inv (nrMap nrLevel : Nat → Nat → Nat) (c : V2State)
    (cur : Point0) (hcur : WfPoint cur) :
    V2Inv nrMap (v2CompressStep nrMap nrLevel c cur).1
      (v2CompressStep nrMap nrLevel c cur).1 := by
  have hd := (v2cv_digits cur c.last_point
    (c.last_intensity (nrMap cur.number_of_returns_of_given_pulse
      cur.return_number))).2.1
  unfold V2Inv v2CompressStep
  simp only [set_fields_from_self _ cur hcur, and_true, true_and,
    eq_self_iff_true]
  rw [hd]
  by_cases hI : c.last_intensity (nrMap cur.number_of_returns_of_given_pulse
      cur.return_number) = cur.intensity
  · simp [hI]
  · simp [hI, updf]

set_option maxHeartbeats 8000000 in
/-- One v2 compress/decompress round trip step: a decompressor whose state
corresponds (`V2Inv`) to the compressor's consumes exactly the emitted
tokens, reproduces the current point, and lands in the compressor's new
state. -/
theorem v2_step_rt (nrMap nrLevel : Nat → Nat → Nat) (c d : V2State)
    (cur : Point0) (rest : List Int) (hcur : WfPoint cur)
    (hinv : V2Inv nrMap c d) :
    v2DecompressStep nrMap nrLevel d
        ((v2CompressStep nrMap nrLevel c cur).2 ++ rest) =
      .ok ((v2CompressStep nrMap nrLevel c cur).1, cur, rest) := by
  obtain ⟨hpx, hpy, hpz, hpn, hpsd, hpe, hpr, hpc, hpsar, hpu, hpp, hdint,
    hdia, hdmx, hdmy, hdh⟩ := hinv
  obtain ⟨hrn, hnn, hint, hcl, hud, hpsid, hx1, hx2, hy1, hy2, hz1, hz2,
    hs1, hs2⟩ := hcur
  have rI : toU16
      ((c.last_intensity (nrMap cur.number_of_returns_of_given_pulse
          cur.return_number) : Int) +
        ((cur.intensity : Int) -
          (c.last_intensity (nrMap cur.number_of_returns_of_given_pulse
            cur.return_number) : Int))) = cur.intensity := by
    unfold toU16; omega
  have rSar : v2ScanAngleDecode
      (v2ScanAngleSymbol cur.scan_angle_rank c.last_point.scan_angle_rank)
      c.last_point.scan_angle_rank = cur.scan_angle_rank := by
    unfold v2ScanAngleDecode v2ScanAngleSymbol toU8 wrap8; omega
  have rC : cur.classification % 256 = cur.classification :=
    Nat.mod_eq_of_lt hcl
  have rU : cur.user_data % 256 = cur.user_data := Nat.mod_eq_of_lt hud
  have rP : toU16 ((c.last_point.point_source_id : Int) +
      ((cur.point_source_id : Int) - (c.last_point.point_source_id : Int))) =
      cur.point_source_id := by
    unfold toU16; omega
  have rPop : ∀ q : Point0,
      q.populate_bit_fields_from (cur.bit_fields_to_byte % 256) =
        { q with
          return_number := cur.return_number,
          number_of_returns_of_given_pulse :=
            cur.number_of_returns_of_given_pulse,
          scan_direction_flag := cur.scan_direction_flag,
          edge_of_flight_line := cur.edge_of_flight_line } := by
    intro q
    rw [Nat.mod_eq_of_lt (bit_fields_to_byte_lt cur)]
    exact populate_bit_fields_of_byte q cur hrn hnn
  have hX : wrap32 (c.last_point.x + wrap32 (cur.x - c.last_point.x)) = cur.x := by
    unfold wrap32; omega
  have hY : wrap32 (c.last_point.y + wrap32 (cur.y - c.last_point.y)) = cur.y := by
    unfold wrap32; omega
  have hZ : wrap32 cur.z = cur.z := wrap32_eq_self hz1 hz2
  have hwf : WfPoint cur :=
    ⟨hrn, hnn, hint, hcl, hud, hpsid, hx1, hx2, hy1, hy2, hz1, hz2, hs1, hs2⟩
  by_cases hBF : (c.last_point.return_number ≠ cur.return_number ∨
      c.last_point.number_of_returns_of_given_pulse ≠
        cur.number_of_returns_of_given_pulse ∨
      c.last_point.scan_direction_flag ≠ cur.scan_direction_flag ∨
      c.last_point.edge_of_flight_line ≠ cur.edge_of_flight_line) <;>
    by_cases hI : c.last_intensity (nrMap cur.number_of_returns_of_given_pulse
        cur.return_number) = cur.intensity <;>
    by_cases hC : c.last_point.classification = cur.classification <;>
    by_cases hS : c.last_point.scan_angle_rank = cur.scan_angle_rank <;>
    by_cases hU : c.last_point.user_data = cur.user_data <;>
    by_cases hP : c.last_point.point_source_id = cur.point_source_id <;>
  · simp_all [v2CompressStep, v2DecompressStep, v2DecChanged,
      v2EncBitFields, v2EncIntensity, v2EncClassification, v2EncScanAngleRank,
      v2EncUserData, v2EncPointSourceId,
      v2DecBitFields, v2DecIntensity, v2DecClassification, v2DecScanAngleRank,
      v2DecUserData, v2DecPointSourceId,
      point10ChangedValues, icCompress, icDecompress, encodeSymbol,
      decodeSymbol, intToNat_cast, intAddSubSelf, point0_eta, updf,
      (show cur.classification % 256 = cur.classification by omega),
      (show cur.user_data % 256 = cur.user_data by omega),
      set_fields_from_self _ cur hwf, Point0.ext_iff]

/-- After `init_first_point` on both sides (compressor writes the raw
point, decompressor reads it back and zeroes its recorded intensity) the
two states correspond. -/
theorem v2_init_inv (nrMap : Nat → Nat → Nat) (p : Point0) :
    V2Inv nrMap (v2CompressorInitFirstPoint p)
      (v2DecompressorInitFirstPoint p) := by
  unfold V2Inv v2CompressorInitFirstPoint v2DecompressorInitFirstPoint
    v2NewState
  simp

/-- v2: compress a list of (non-first) points, concatenating the emitted
tokens. -/
def v2EncodeList (nrMap nrLevel : Nat → Nat → Nat) (s : V2State) :
    List Point0 → V2State × List Int
  | [] => (s, [])
  | p :: ps =>
    let r1 := v2CompressStep nrMap nrLevel s p
    let r2 := v2EncodeList nrMap nrLevel r1.1 ps
    (r2.1, r1.2 ++ r2.2)

/-- v2: decompress `n` (non-first) points from the token stream. -/
def v2DecodeList (nrMap nrLevel : Nat → Nat → Nat) (s : V2State) :
    Nat → List Int → Except CodecErr (V2State × List Point0 × List Int)
  | 0, st => .ok (s, [], st)
  | n + 1, st =>
    match v2DecompressStep nrMap nrLevel s st with
    | .error e => .error e
    | .ok (s1, p, st1) =>
      match v2DecodeList nrMap nrLevel s1 n st1 with
      | .error e => .error e
      | .ok (s2, ps, st2) => .ok (s2, p :: ps, st2)

theorem v2_list_rt (nrMap nrLevel : Nat → Nat → Nat) (ps : List Point0)
    (c d : V2State) (rest : List Int)
    (hwf : ∀ p ∈ ps, WfPoint p) (hinv : V2Inv nrMap c d) :
    ∃ dFin, v2DecodeList nrMap nrLevel d ps.length
        ((v2EncodeList nrMap nrLevel c ps).2 ++ rest) = .ok (dFin, ps, rest) := by
  induction ps generalizing c d rest with
  | nil => exact ⟨d, by simp [v2EncodeList, v2DecodeList]⟩
  | cons p ps ih =>
    have hp : WfPoint p := hwf p (by simp)
    obtain ⟨dFin, hd⟩ := ih (v2CompressStep nrMap nrLevel c p).1
      (v2CompressStep nrMap nrLevel c p).1 rest
      (fun q hq => hwf q (by simp [hq])) (v2_step_inv nrMap nrLevel c p hp)
    refine ⟨dFin, ?_⟩
    simp only [v2EncodeList, v2DecodeList, List.length_cons, List.append_assoc]
    rw [v2_step_rt nrMap nrLevel c d p _ hp hinv]
    simp only []
    rw [hd]

/-- Full v2 encoding of a point sequence. -/
def v2Compressed (nrMap nrLevel : Nat → Nat → Nat) (p0 : Point0)
    (ps : List Point0) : List Int :=
  (v2EncodeList nrMap nrLevel (v2CompressorInitFirstPoint p0) ps).2

/-- Full v2 decoding of `n + 1` points (the first read raw). -/
def v2Decompressed (nrMap nrLevel : Nat → Nat → Nat) (p0 : Point0) (n : Nat)
    (st : List Int) : Except CodecErr (List Point0) :=
  match v2DecodeList nrMap nrLevel (v2DecompressorInitFirstPoint p0) n st with
  | .error e => .error e
  | .ok (_, ps, _) => .ok (Point0.set_fields_from Point0.default p0 :: ps)

/-- Claim C1: for every sequence of Point10 records (with
`return_number ≤ 7` and `number_of_returns ≤ 7`), compressing with the
version-X compressor (first point via `init_first_point`, the rest via
`compress_field_with`) and decompressing with a fresh version-X
decompressor over the same arithmetic-coder collaborators yields the
identical sequence, for X ∈ {1, 2} (v2 for every pair of return-geometry
tables). -/
theorem claim_C1_roundtrip (p0 : Point0) (ps : List Point0)
    (h0 : WfPoint p0) (hps : ∀ p ∈ ps, WfPoint p) :
    v1Decompressed p0 ps.length (v1Compressed p0 ps) = .ok (p0 :: ps) ∧
    ∀ nrMap nrLevel : Nat → Nat → Nat,
      v2Decompressed nrMap nrLevel p0 ps.length
        (v2Compressed nrMap nrLevel p0 ps) = .ok (p0 :: ps) := by
  constructor
  · unfold v1Decompressed v1Compressed
    have hl : WfPoint (v1InitFirstPoint p0).last_point := by
      unfold v1InitFirstPoint
      simp only [set_fields_from_self _ p0 h0]
      exact h0
    have hrt := v1_list_rt ps (v1InitFirstPoint p0) [] hps hl
    rw [List.append_nil] at hrt
    rw [hrt]
    simp only [set_fields_from_self _ p0 h0]
  · intro nrMap nrLevel
    unfold v2Decompressed v2Compressed
    obtain ⟨dFin, hd⟩ := v2_list_rt nrMap nrLevel ps
      (v2CompressorInitFirstPoint p0) (v2DecompressorInitFirstPoint p0) []
      hps (v2_init_inv nrMap p0)
    rw [List.append_nil] at hd
    rw [hd]
    simp only [set_fields_from_self _ p0 h0]

/-- First witness point: a baseline record. -/
def wP0 : Point0 :=
  { x := 1000, y := 2000, z := 300, intensity := 10,
    number_of_returns_of_given_pulse := 1, scan_direction_flag := false,
    edge_of_flight_line := false, return_number := 1, classification := 2,
    scan_angle_rank := 120, user_data := 0, point_source_id := 7 }

/-- Second witness point: changes intensity, bit fields, scan angle
(wrap-around) and coordinates. -/
def wP1 : Point0 :=
  { x := -50, y := 2100, z := 280, intensity := 20,
    number_of_returns_of_given_pulse := 3, scan_direction_flag := true,
    edge_of_flight_line := false, return_number := 2, classification := 2,
    scan_angle_rank := -100, user_data := 5, point_source_id := 7 }

/-- Third witness point: changes classification, user data and
point-source id only. -/
def wP2 : Point0 :=
  { x := -50, y := 2100, z := 280, intensity := 20,
    number_of_returns_of_given_pulse := 3, scan_direction_flag := true,
    edge_of_flight_line := false, return_number := 2, classification := 31,
    scan_angle_rank := -100, user_data := 6, point_source_id := 65535 }

theorem claim_C1_roundtrip_witness :
    (v1Decompressed wP0 2 (v1Compressed wP0 [wP1, wP2]) =
      .ok [wP0, wP1, wP2]) ∧
    (v2Decompressed (fun _ _ => 0) (fun _ _ => 0) wP0 2
        (v2Compressed (fun _ _ => 0) (fun _ _ => 0) wP0 [wP1, wP2]) =
      .ok [wP0, wP1, wP2]) :=
  ⟨(claim_C1_roundtrip wP0 [wP1, wP2] (by decide) (by decide)).1,
   (claim_C1_roundtrip wP0 [wP1, wP2] (by decide) (by decide)).2
     (fun _ _ => 0) (fun _ _ => 0)⟩

/-- v2 decompressor states reachable from `init_first_point` by successful
decode steps. -/
inductive V2Reachable (nrMap nrLevel : Nat → Nat → Nat) : V2State → Prop where
  | init (p : Point0) :
      V2Reachable nrMap nrLevel (v2DecompressorInitFirstPoint p)
  | step (s s' : V2State) (st st' : List Int) (p : Point0)
      (hs : V2Reachable nrMap nrLevel s)
      (h : v2DecompressStep nrMap nrLevel s st = .ok (s', p, st')) :
      V2Reachable nrMap nrLevel s'

/-- The v2 decompressor's intensity bookkeeping invariant:
`last_point.intensity` mirrors `last_intensity[m]` for the current return
geometry of `last_point`. -/
def V2IntensityInv (nrMap : Nat → Nat → Nat) (s : V2State) : Prop :=
  s.last_point.intensity = s.last_intensity
    (nrMap s.last_point.number_of_returns_of_given_pulse
      s.last_point.return_number)

theorem set_fields_from_intensity (q p : Point0) :
    (Point0.set_fields_from q p).intensity = p.intensity := rfl

theorem v2DecBitFields_spec (cv : Nat) (p : Point0) (st : List Int)
    (q : Point0) (st₂ : List Int) (h : v2DecBitFields cv p st = .ok (q, st₂)) :
    q.intensity = p.intensity := by
  unfold v2DecBitFields at h
  by_cases hb : cv / 32 % 2 ≠ 0
  · rw [if_pos hb] at h
    cases st with
    | nil => simp [decodeSymbol] at h
    | cons a tl =>
      simp only [decodeSymbol] at h
      cases h
      rfl
  · rw [if_neg hb] at h
    cases h
    rfl

theorem v2DecIntensity_spec (cv m : Nat) (lastInt : Nat → Nat) (p : Point0)
    (st : List Int) (q : Point0) (lastInt2 : Nat → Nat) (st₂ : List Int)
    (h : v2DecIntensity cv m lastInt p st = .ok ((q, lastInt2), st₂)) :
    q.intensity = lastInt2 m ∧
    (cv / 16 % 2 = 0 → lastInt2 = lastInt) ∧
    q.number_of_returns_of_given_pulse = p.number_of_returns_of_given_pulse ∧
    q.return_number = p.return_number := by
  unfold v2DecIntensity at h
  by_cases hb : cv / 16 % 2 ≠ 0
  · rw [if_pos hb] at h
    cases st with
    | nil => simp [icDecompress] at h
    | cons a tl =>
      simp only [icDecompress] at h
      cases h
      refine ⟨?_, fun h0 => absurd h0 hb, rfl, rfl⟩
      simp [updf]
  · rw [if_neg hb] at h
    cases h
    exact ⟨rfl, fun _ => rfl, rfl, rfl⟩

theorem v2DecClassification_spec (cv : Nat) (p : Point0) (st : List Int)
    (q : Point0) (st₂ : List Int)
    (h : v2DecClassification cv p st = .ok (q, st₂)) :
    q.intensity = p.intensity ∧
    q.number_of_returns_of_given_pulse = p.number_of_returns_of_given_pulse ∧
    q.return_number = p.return_number := by
  unfold v2DecClassification at h
  by_cases hb : cv / 8 % 2 ≠ 0
  · rw [if_pos hb] at h
    cases st with
    | nil => simp [decodeSymbol] at h
    | cons a tl =>
      simp only [decodeSymbol] at h
      cases h
      exact ⟨rfl, rfl, rfl⟩
  · rw [if_neg hb] at h
    cases h
    exact ⟨rfl, rfl, rfl⟩

theorem v2DecScanAngleRank_spec (cv : Nat) (p : Point0) (st : List Int)
    (q : Point0) (st₂ : List Int)
    (h : v2DecScanAngleRank cv p st = .ok (q, st₂)) :
    q.intensity = p.intensity ∧
    q.number_of_returns_of_given_pulse = p.number_of_returns_of_given_pulse ∧
    q.return_number = p.return_number := by
  unfold v2DecScanAngleRank at h
  by_cases hb : cv / 4 % 2 ≠ 0
  · rw [if_pos hb] at h
    cases st with
    | nil => simp [decodeSymbol] at h
    | cons a tl =>
      simp only [decodeSymbol] at h
      cases h
      exact ⟨rfl, rfl, rfl⟩
  · rw [if_neg hb] at h
    cases h
    exact ⟨rfl, rfl, rfl⟩

theorem v2DecUserData_spec (cv : Nat) (p : Point0) (st : List Int)
    (q : Point0) (st₂ : List Int)
    (h : v2DecUserData cv p st = .ok (q, st₂)) :
    q.intensity = p.intensity ∧
    q.number_of_returns_of_given_pulse = p.number_of_returns_of_given_pulse ∧
    q.return_number = p.return_number := by
  unfold v2DecUserData at h
  by_cases hb : cv / 2 % 2 ≠ 0
  · rw [if_pos hb] at h
    cases st with
    | nil => simp [decodeSymbol] at h
    | cons a tl =>
      simp only [decodeSymbol] at h
      cases h
      exact ⟨rfl, rfl, rfl⟩
  · rw [if_neg hb] at h
    cases h
    exact ⟨rfl, rfl, rfl⟩

theorem v2DecPointSourceId_spec (cv : Nat) (p : Point0) (st : List Int)
    (q : Point0) (st₂ : List Int)
    (h : v2DecPointSourceId cv p st = .ok (q, st₂)) :
    q.intensity = p.intensity ∧
    q.number_of_returns_of_given_pulse = p.number_of_returns_of_given_pulse ∧
    q.return_number = p.return_number := by
  unfold v2DecPointSourceId at h
  by_cases hb : cv % 2 ≠ 0
  · rw [if_pos hb] at h
    cases st with
    | nil => simp [icDecompress] at h
    | cons a tl =>
      simp only [icDecompress] at h
      cases h
      exact ⟨rfl, rfl, rfl⟩
  · rw [if_neg hb] at h
    cases h
    exact ⟨rfl, rfl, rfl⟩

theorem v2DecChanged_spec (nrMap nrLevel : Nat → Nat → Nat) (cv : Nat)
    (s : V2State) (st : List Int) (p : Point0) (lastInt : Nat → Nat)
    (m l : Nat) (st₂ : List Int)
    (hJ : V2IntensityInv nrMap s)
    (h : v2DecChanged nrMap nrLevel cv s st = .ok ((p, lastInt, m, l), st₂)) :
    p.intensity = lastInt m ∧
    m = nrMap p.number_of_returns_of_given_pulse p.return_number ∧
    (cv / 16 % 2 = 0 → lastInt = s.last_intensity) := by
  unfold v2DecChanged at h
  by_cases hcv : cv ≠ 0
  · rw [if_pos hcv] at h
    cases hbf : v2DecBitFields cv s.last_point st with
    | error e => simp [hbf] at h
    | ok r1 =>
      obtain ⟨p1, st1⟩ := r1
      simp only [hbf] at h
      cases hin : v2DecIntensity cv
          (nrMap p1.number_of_returns_of_given_pulse p1.return_number)
          s.last_intensity p1 st1 with
      | error e => simp [hin] at h
      | ok r2 =>
        obtain ⟨⟨p2, li2⟩, st2'⟩ := r2
        simp only [hin] at h
        cases hcl : v2DecClassification cv p2 st2' with
        | error e => simp [hcl] at h
        | ok r3 =>
          obtain ⟨p3, st3⟩ := r3
          simp only [hcl] at h
          cases hsa : v2DecScanAngleRank cv p3 st3 with
          | error e => simp [hsa] at h
          | ok r4 =>
            obtain ⟨p4, st4⟩ := r4
            simp only [hsa] at h
            cases hud : v2DecUserData cv p4 st4 with
            | error e => simp [hud] at h
            | ok r5 =>
              obtain ⟨p5, st5⟩ := r5
              simp only [hud] at h
              cases hps : v2DecPointSourceId cv p5 st5 with
              | error e => simp [hps] at h
              | ok r6 =>
                obtain ⟨p6, st6⟩ := r6
                simp only [hps] at h
                cases h
                obtain ⟨i2, iflag, n2, r2n⟩ :=
                  v2DecIntensity_spec _ _ _ _ _ _ _ _ hin
                obtain ⟨i3, n3, r3n⟩ := v2DecClassification_spec _ _ _ _ _ hcl
                obtain ⟨i4, n4, r4n⟩ := v2DecScanAngleRank_spec _ _ _ _ _ hsa
                obtain ⟨i5, n5, r5n⟩ := v2DecUserData_spec _ _ _ _ _ hud
                obtain ⟨i6, n6, r6n⟩ := v2DecPointSourceId_spec _ _ _ _ _ hps
                refine ⟨?_, ?_, fun h0 => iflag h0⟩
                · rw [i6, i5, i4, i3, i2]
                · rw [n6, n5, n4, n3, n2, r6n, r5n, r4n, r3n, r2n]
  · rw [if_neg hcv] at h
    cases h
    exact ⟨hJ, rfl, fun _ => rfl⟩

theorem v2_step_analysis (nrMap nrLevel : Nat → Nat → Nat) (s : V2State)
    (c : Int) (st : List Int) (s' : V2State) (p : Point0) (st' : List Int)
    (hJ : V2IntensityInv nrMap s)
    (h : v2DecompressStep nrMap nrLevel s (c :: st) = .ok (s', p, st')) :
    V2IntensityInv nrMap s' ∧
    (c.toNat / 16 % 2 = 0 →
      p.intensity = s.last_intensity
        (nrMap s'.last_point.number_of_returns_of_given_pulse
          s'.last_point.return_number)) := by
  unfold v2DecompressStep at h
  simp only [decodeSymbol] at h
  cases hch : v2DecChanged nrMap nrLevel c.toNat s st with
  | error e => simp [hch] at h
  | ok r1 =>
    obtain ⟨⟨p1, li, m, l⟩, st1⟩ := r1
    simp only [hch] at h
    obtain ⟨hint, hm, hflag⟩ :=
      v2DecChanged_spec nrMap nrLevel _ s st p1 li m l st1 hJ hch
    cases hx : icDecompress (smGet (s.last_x_diff_median m))
        (v2DxCtx p1.number_of_returns_of_given_pulse) st1 with
    | error e => simp [hx] at h
    | ok rx =>
      obtain ⟨k1, xv, stx⟩ := rx
      simp only [hx] at h
      cases hy : icDecompress (smGet (s.last_y_diff_median m))
          (v2DyCtx p1.number_of_returns_of_given_pulse k1) stx with
      | error e => simp [hy] at h
      | ok ry =>
        obtain ⟨k2, yv, sty⟩ := ry
        simp only [hy] at h
        cases hz : icDecompress (s.last_height l)
            (v2ZCtx p1.number_of_returns_of_given_pulse ((k1 + k2) / 2)) sty with
        | error e => simp [hz] at h
        | ok rz =>
          obtain ⟨k3, zv, stz⟩ := rz
          simp only [hz] at h
          cases h
          constructor
          · unfold V2IntensityInv
            exact hm ▸ hint
          · intro h0
            exact hm ▸ (hflag h0) ▸ hint

theorem v2_reachable_J (nrMap nrLevel : Nat → Nat → Nat) (s : V2State)
    (h : V2Reachable nrMap nrLevel s) : V2IntensityInv nrMap s := by
  induction h with
  | init p =>
    unfold V2IntensityInv v2DecompressorInitFirstPoint v2NewState
    simp
  | step s s' st st' p hs hstep ih =>
    cases st with
    | nil => simp [v2DecompressStep, decodeSymbol] at hstep
    | cons c tl =>
      exact (v2_step_analysis nrMap nrLevel s c tl s' p st' ih hstep).1

/-- Claim C3: in the v2 decompressor, after any reachable sequence of
decode steps, a point decoded with `intensity_changed = false` (bit 4 of
the changed-values symbol clear) carries intensity `last_intensity[m]`
with `m` derived from the current (post-step) return geometry — including
the path where the whole changed-values symbol is 0 and no explicit copy is
performed. -/
theorem claim_C3_intensity_isolation (nrMap nrLevel : Nat → Nat → Nat)
    (s : V2State) (c : Int) (st : List Int) (s' : V2State) (p : Point0)
    (st' : List Int)
    (hreach : V2Reachable nrMap nrLevel s)
    (hstep : v2DecompressStep nrMap nrLevel s (c :: st) = .ok (s', p, st'))
    (hflag : c.toNat / 16 % 2 = 0) :
    p.intensity = s.last_intensity
      (nrMap s'.last_point.number_of_returns_of_given_pulse
        s'.last_point.return_number) :=
  (v2_step_analysis nrMap nrLevel s c st s' p st'
    (v2_reachable_J nrMap nrLevel s hreach) hstep).2 hflag

theorem claim_C3_intensity_isolation_witness :
    ({ wP0 with intensity := 0, z := 0 } : Point0).intensity =
      (v2DecompressorInitFirstPoint wP0).last_intensity 0 :=
  claim_C3_intensity_isolation (fun _ _ => 0) (fun _ _ => 0)
    (v2DecompressorInitFirstPoint wP0) 0 [0, 0, 0] _
    { wP0 with intensity := 0, z := 0 } _
    (V2Reachable.init wP0) rfl (by decide)

theorem ite_one_iff (P : Prop) [Decidable P] :
    (if P then 1 else 0 : Nat) = 1 ↔ P := by
  split_ifs with h <;> simp [h]

/-- Claim C5: `median_diff` returns the value standing at index 1 of the
stable (insertion) sort of its three inputs — for distinct values the
middle one, on ties the shared tied value ("first encountered equal
element") — and it always returns one of its inputs; exhaustiveness over
`{0,1,2}^3` is a special case of this universal statement. -/
theorem claim_C5_median_diff (a b c : Int) :
    median_diff a b c = (sorted3 a b c).getD 1 0 ∧
    (median_diff a b c = a ∨ median_diff a b c = b ∨ median_diff a b c = c) := by
  unfold median_diff sorted3
  by_cases hab : a ≤ b <;> by_cases hbc : b ≤ c <;> by_cases hac : a ≤ c <;>
    simp [hab, hbc, hac, List.insertionSort, List.orderedInsert, List.getD] <;>
    first
      | omega
      | (split_ifs <;> omega)
      | (split_ifs <;> simp_all <;> omega)

/-- Claim C6: packing the four sub-fields obtained by unpacking any byte
yields the byte again:
`bit_fields_to_byte (populate_bit_fields_from b) = b` for `b < 256`. -/
theorem claim_C6_bit_fields_roundtrip (p : Point0) (b : Nat) (hb : b < 256) :
    (p.populate_bit_fields_from b).bit_fields_to_byte = b := by
  unfold Point0.populate_bit_fields_from Point0.bit_fields_to_byte
  by_cases h64 : b / 64 % 2 = 1 <;> by_cases h128 : b / 128 % 2 = 1 <;>
    simp [h64, h128, bne_iff_ne, beq_iff_eq, Bool.cond_eq_ite] <;> omega

theorem claim_C6_bit_fields_roundtrip_witness :
    (Point0.default.populate_bit_fields_from 203).bit_fields_to_byte = 203 ∧
    203 < 256 :=
  ⟨claim_C6_bit_fields_roundtrip Point0.default 203 (by decide), by decide⟩

/-- Claim C2: the v2 changed-values symbol is exactly
bit5 = bit-fields changed (the OR of the four sub-field inequalities, not
the packed byte), bit4 = intensity compared against the supplied
`last_intensity[m]` (not `last_point.intensity`), bit3 = classification,
bit2 = scan-angle-rank, bit1 = user-data, bit0 = point-source-id. -/
theorem claim_C2_changed_values_bits (cur last : Point0) (li : Nat) :
    (point10ChangedValues cur last li / 32 % 2 = 1 ↔
      (last.return_number ≠ cur.return_number ∨
       last.number_of_returns_of_given_pulse ≠
         cur.number_of_returns_of_given_pulse ∨
       last.scan_direction_flag ≠ cur.scan_direction_flag ∨
       last.edge_of_flight_line ≠ cur.edge_of_flight_line)) ∧
    (point10ChangedValues cur last li / 16 % 2 = 1 ↔ li ≠ cur.intensity) ∧
    (point10ChangedValues cur last li / 8 % 2 = 1 ↔
      last.classification ≠ cur.classification) ∧
    (point10ChangedValues cur last li / 4 % 2 = 1 ↔
      last.scan_angle_rank ≠ cur.scan_angle_rank) ∧
    (point10ChangedValues cur last li / 2 % 2 = 1 ↔
      last.user_data ≠ cur.user_data) ∧
    (point10ChangedValues cur last li % 2 = 1 ↔
      last.point_source_id ≠ cur.point_source_id) := by
  obtain ⟨d5, d4, d3, d2, d1, d0⟩ := v2cv_digits cur last li
  rw [d5, d4, d3, d2, d1, d0]
  exact ⟨ite_one_iff _, ite_one_iff _, ite_one_iff _, ite_one_iff _,
    ite_one_iff _, ite_one_iff _⟩

/-- Claim C4: the v2 scan-angle symbol is the difference reduced modulo 256
to an unsigned byte, it fits in a byte, and the decoder reconstructs the
current value exactly by the wrapping byte addition — for every pair of
`i8` values, including wrap-around. -/
theorem claim_C4_scan_angle_wraparound (cur last : Int)
    (hc1 : -(2 ^ 7) ≤ cur) (hc2 : cur < 2 ^ 7)
    (hl1 : -(2 ^ 7) ≤ last) (hl2 : last < 2 ^ 7) :
    v2ScanAngleSymbol cur last = ((cur - last) % 256).toNat ∧
    v2ScanAngleSymbol cur last < 256 ∧
    v2ScanAngleDecode (v2ScanAngleSymbol cur last) last = cur := by
  unfold v2ScanAngleSymbol v2ScanAngleDecode toU8 wrap8
  refine ⟨rfl, by omega, by omega⟩

theorem claim_C4_scan_angle_wraparound_witness :
    (v2ScanAngleSymbol (-100) 120 = (((-100 : Int) - 120) % 256).toNat ∧
     v2ScanAngleSymbol (-100) 120 < 256 ∧
     v2ScanAngleDecode (v2ScanAngleSymbol (-100) 120) 120 = -100) ∧
    v2ScanAngleSymbol (-100) 120 = 36 :=
  ⟨claim_C4_scan_angle_wraparound (-100) 120 (by decide) (by decide)
      (by decide) (by decide), by decide⟩

/-- Configuration requested from the integer-coder builder: bit width and
context count (`none` when `.contexts(..)` is not called and the builder
default applies). -/
structure IntCoderCfg where
  bits : Nat
  contexts : Option Nat
deriving DecidableEq, Repr

/-- The six per-field integer coders of the v1 codec. -/
structure V1CoderCfgs where
  ic_dx : IntCoderCfg
  ic_dy : IntCoderCfg
  ic_dz : IntCoderCfg
  ic_intensity : IntCoderCfg
  ic_scan_angle_rank : IntCoderCfg
  ic_point_source_id : IntCoderCfg
deriving DecidableEq, Repr

/-- The builder calls in `v1::LasPoint0Decompressor::new` (lines 569-589):
`dx` 32 bits, `dy` 32 bits / 20 contexts, `dz` 32 bits / 20 contexts,
`intensity` 16 bits, `scan_angle_rank` 8 bits / 2 contexts,
`point_source_id` 16 bits. -/
def v1DecompressorNewCfgs : V1CoderCfgs :=
  { ic_dx := ⟨32, none⟩, ic_dy := ⟨32, some 20⟩, ic_dz := ⟨32, some 20⟩,
    ic_intensity := ⟨16, none⟩, ic_scan_angle_rank := ⟨8, some 2⟩,
    ic_point_source_id := ⟨16, none⟩ }

/-- The builder calls in `v1::LasPoint0Compressor::new` (lines 744-758). -/
def v1CompressorNewCfgs : V1CoderCfgs :=
  { ic_dx := ⟨32, none⟩, ic_dy := ⟨32, some 20⟩, ic_dz := ⟨32, some 20⟩,
    ic_intensity := ⟨16, none⟩, ic_scan_angle_rank := ⟨8, some 2⟩,
    ic_point_source_id := ⟨16, none⟩ }

/-- Claim C8, counterexample: the v1 scan-angle-rank coder is built with
`.bits(8)` — not 16 or 32 — in both the compressor and the decompressor. -/
theorem claim_C8_counterexample :
    v1DecompressorNewCfgs.ic_scan_angle_rank.bits = 8 ∧
    v1CompressorNewCfgs.ic_scan_angle_rank.bits = 8 ∧
    ¬(v1DecompressorNewCfgs.ic_scan_angle_rank.bits = 16 ∨
      v1DecompressorNewCfgs.ic_scan_angle_rank.bits = 32) := by
  decide

/-- Claim C8 (amended): the six v1 integer coders have the context counts
the claim states (dx none, dy 20, dz 20, intensity none, scan_angle_rank 2,
point_source_id none) and widths 32/32/32/16/8/16 — identical in the
compressor and the decompressor; the scan-angle-rank coder is 8-bit, not 16
or 32. -/
theorem claim_C8_coder_configs :
    v1DecompressorNewCfgs = v1CompressorNewCfgs ∧
    v1DecompressorNewCfgs.ic_dx = ⟨32, none⟩ ∧
    v1DecompressorNewCfgs.ic_dy = ⟨32, some 20⟩ ∧
    v1DecompressorNewCfgs.ic_dz = ⟨32, some 20⟩ ∧
    v1DecompressorNewCfgs.ic_intensity = ⟨16, none⟩ ∧
    v1DecompressorNewCfgs.ic_scan_angle_rank = ⟨8, some 2⟩ ∧
    v1DecompressorNewCfgs.ic_point_source_id = ⟨16, none⟩ := by
  decide

/-- Claim C9, counterexample: the v2 *compressor*'s `init_first_point` does
not force `last_point.intensity` to 0 — on a first point with intensity 10
the recorded intensity is 10. -/
theorem claim_C9_counterexample :
    (v2CompressorInitFirstPoint wP0).last_point.intensity = 10 ∧
    (10 : Nat) ≠ 0 := by
  decide

/-- Claim C9 (amended): in v2 only the decompressor's `init_first_point`
forces `last_point.intensity` to 0 after copying the fields; the
compressor's merely copies all fields. -/
theorem claim_C9_init_intensity (p : Point0) (hp : WfPoint p) :
    (v2DecompressorInitFirstPoint p).last_point = { p with intensity := 0 } ∧
    (v2CompressorInitFirstPoint p).last_point = p := by
  unfold v2DecompressorInitFirstPoint v2CompressorInitFirstPoint
  rw [set_fields_from_self _ p hp]
  exact ⟨rfl, rfl⟩

theorem claim_C9_init_intensity_witness :
    (v2DecompressorInitFirstPoint wP0).last_point = { wP0 with intensity := 0 } ∧
    (v2CompressorInitFirstPoint wP0).last_point = wP0 :=
  claim_C9_init_intensity wP0 (by decide)

/-- Claim C10: with the integer coder's `k` between 0 and 32, every context
the codec passes is strictly below the coder's context count (v1 dy/dz:
`< 20`; v1 scan-angle-rank: `< 2`; v2 dx: `< 2`; v2 dy: `< 22`; v2 z:
`< 20`; v2 intensity: `< 4`), and a packed bit-field byte used as a
256-model index is `< 256`. -/
theorem claim_C10_context_bounds (k ka n m : Nat) (p : Point0)
    (hk : k ≤ 32) (hka : ka ≤ 32) (hm : m < 16) :
    v1DyCtx k < 20 ∧ v1DzCtx ka < 20 ∧ v1SarCtx ka < 2 ∧
    v2DxCtx n < 2 ∧ v2DyCtx n k < 22 ∧ v2ZCtx n ka < 20 ∧
    v2IntensityCtx m < 4 ∧ p.bit_fields_to_byte < 256 := by
  refine ⟨?_, ?_, ?_, ?_, ?_, ?_, ?_, bit_fields_to_byte_lt p⟩ <;>
    simp only [v1DyCtx, v1DzCtx, v1SarCtx, v2DxCtx, v2DyCtx, v2ZCtx,
      v2IntensityCtx, u32_zero_bit] <;>
    split_ifs <;> omega

theorem claim_C10_context_bounds_witness :
    v1DyCtx 32 < 20 ∧ v1DzCtx 32 < 20 ∧ v1SarCtx 32 < 2 ∧
    v2DxCtx 1 < 2 ∧ v2DyCtx 1 32 < 22 ∧ v2ZCtx 1 32 < 20 ∧
    v2IntensityCtx 5 < 4 ∧ wP0.bit_fields_to_byte < 256 :=
  claim_C10_context_bounds 32 32 1 5 wP0 (by decide) (by decide) (by decide)

/-- Little-endian read of `len` bytes at `off` (used after the length guard
has passed; `getD` is then always in bounds). -/
def leRead (buf : List Nat) (off : Nat) : Nat → Nat
  | 0 => 0
  | n + 1 => buf.getD off 0 + 256 * leRead buf (off + 1) n

/-- Little-endian bytes of a value (`to_le_bytes`). -/
def leBytes : Nat → Nat → List Nat
  | 0, _ => []
  | n + 1, v => v % 256 :: leBytes n (v / 256)

/-- Two's-complement `u32` image of an `i32` value. -/
def u32ofI32 (z : Int) : Nat := (z % 2 ^ 32).toNat

/-- `<Point0 as Packable>::unpack_from`: panics when `|input| < 20`,
otherwise reads the 20-byte little-endian Point10 layout. -/
def unpack_from (input : List Nat) : Except CodecErr Point0 :=
  if input.length < 20 then .error .panic
  else
    let base : Point0 :=
      { x := wrap32 (leRead input 0 4), y := wrap32 (leRead input 4 4),
        z := wrap32 (leRead input 8 4),
        intensity := leRead input 12 2,
        number_of_returns_of_given_pulse := 0,
        scan_direction_flag := false, edge_of_flight_line := false,
        return_number := 0,
        classification := input.getD 15 0,
        scan_angle_rank := wrap8 (input.getD 16 0),
        user_data := input.getD 17 0,
        point_source_id := leRead input 18 2 }
    .ok (base.populate_bit_fields_from (input.getD 14 0))

/-- `<Point0 as Packable>::pack_into`: panics when `|output| < 20`,
otherwise writes the 20-byte little-endian layout. -/
def pack_into (p : Point0) (output : List Nat) : Except CodecErr (List Nat) :=
  if output.length < 20 then .error .panic
  else
    .ok (leBytes 4 (u32ofI32 p.x) ++ leBytes 4 (u32ofI32 p.y) ++
         leBytes 4 (u32ofI32 p.z) ++ leBytes 2 p.intensity ++
         [p.bit_fields_to_byte] ++ [p.classification % 256] ++
         [toU8 p.scan_angle_rank] ++ [p.user_data % 256] ++
         leBytes 2 p.point_source_id ++ output.drop 20)

/-- `Point0Wrapper::new`: panics when the buffer is shorter than 20
bytes. -/
def point0WrapperNew (buf : List Nat) : Except CodecErr (List Nat) :=
  if buf.length < 20 then .error .panic else .ok buf

/-- An unchecked (`get_unchecked_mut`) write of `bytes` at `off`: writing
past the end of the buffer is an out-of-bounds access, not a panic. -/
def wrapWrite (buf : List Nat) (off : Nat) (bytes : List Nat) :
    Except CodecErr (List Nat) :=
  if off + bytes.length ≤ buf.length then
    .ok (buf.take off ++ bytes ++ buf.drop (off + bytes.length))
  else .error .oob

/-- `set_fields_from` on a `Point0Wrapper`: the nine unchecked field writes
at the §3 offsets. -/
def wrapperSetFields (buf : List Nat) (p : Point0) : Except CodecErr (List Nat) :=
  match wrapWrite buf 0 (leBytes 4 (u32ofI32 p.x)) with
  | .error e => .error e
  | .ok buf =>
    match wrapWrite buf 4 (leBytes 4 (u32ofI32 p.y)) with
    | .error e => .error e
    | .ok buf =>
      match wrapWrite buf 8 (leBytes 4 (u32ofI32 p.z)) with
      | .error e => .error e
      | .ok buf =>
        match wrapWrite buf 12 (leBytes 2 p.intensity) with
        | .error e => .error e
        | .ok buf =>
          match wrapWrite buf 14 [p.bit_fields_to_byte] with
          | .error e => .error e
          | .ok buf =>
            match wrapWrite buf 15 [p.classification % 256] with
            | .error e => .error e
            | .ok buf =>
              match wrapWrite buf 16 [toU8 p.scan_angle_rank] with
              | .error e => .error e
              | .ok buf =>
                match wrapWrite buf 17 [p.user_data % 256] with
                | .error e => .error e
                | .ok buf => wrapWrite buf 18 (leBytes 2 p.point_source_id)

/-- `v1::LasPoint0Decompressor::decompress_with` (BufferFieldDecompressor):
the wrapper is built with the struct literal `Point0Wrapper { slc: buf }`,
*bypassing* `Point0Wrapper::new` and its length check; the final
`set_fields_from` then writes into the buffer unchecked. -/
def v1DecompressWithBuffer (s : V1State) (st : List Int) (buf : List Nat) :
    Except CodecErr (V1State × List Nat × List Int) :=
  match v1DecompressStep s st with
  | .error e => .error e
  | .ok (s1, p, st1) =>
    match wrapperSetFields buf p with
    | .error e => .error e
    | .ok buf1 => .ok (s1, buf1, st1)

/-- `v2::LasPoint0Decompressor::decompress_with` (BufferFieldDecompressor):
the wrapper is built with `Point0Wrapper::new`, which panics first on a
short buffer. -/
def v2DecompressWithBuffer (nrMap nrLevel : Nat → Nat → Nat) (s : V2State)
    (st : List Int) (buf : List Nat) :
    Except CodecErr (V2State × List Nat × List Int) :=
  match point0WrapperNew buf with
  | .error e => .error e
  | .ok buf =>
    match v2DecompressStep nrMap nrLevel s st with
    | .error e => .error e
    | .ok (s1, p, st1) =>
      match wrapperSetFields buf p with
      | .error e => .error e
      | .ok buf1 => .ok (s1, buf1, st1)

/-- Claim C7, counterexample: v1's `decompress_with` on a buffer shorter
than 20 bytes does NOT fail fast with a panic — the wrapper is constructed
without the length check and the decode reaches an unchecked out-of-bounds
buffer access (undefined behaviour in the source, `oob` here). -/
theorem claim_C7_counterexample :
    v1DecompressWithBuffer v1NewState [0, 0, 0, 0] [] = .error .oob ∧
    CodecErr.oob ≠ CodecErr.panic := by
  exact ⟨rfl, by decide⟩

/-- Claim C7 (amended): on every buffer shorter than 20 bytes,
`Point0::unpack_from`, `Point0::pack_into` and the v2 entry points that
build the wrapper through `Point0Wrapper::new` fail fast with a panic;
v1's `decompress_first`/`decompress_with` construct the wrapper without
the check and instead reach an unchecked out-of-bounds access. -/
theorem claim_C7_short_buffer_panics (buf : List Nat) (p : Point0)
    (nrMap nrLevel : Nat → Nat → Nat) (s : V2State) (st : List Int)
    (h : buf.length < 20) :
    unpack_from buf = .error .panic ∧
    pack_into p buf = .error .panic ∧
    point0WrapperNew buf = .error .panic ∧
    v2DecompressWithBuffer nrMap nrLevel s st buf = .error .panic := by
  refine ⟨?_, ?_, ?_, ?_⟩ <;>
    simp [unpack_from, pack_into, point0WrapperNew, v2DecompressWithBuffer, h]

theorem claim_C7_short_buffer_panics_witness :
    unpack_from [1, 2, 3] = .error .panic ∧
    pack_into wP0 [1, 2, 3] = .error .panic ∧
    point0WrapperNew [1, 2, 3] = .error .panic ∧
    v2DecompressWithBuffer (fun _ _ => 0) (fun _ _ => 0) v2NewState []
      [1, 2, 3] = .error .panic :=
  claim_C7_short_buffer_panics [1, 2, 3] wP0 (fun _ _ => 0) (fun _ _ => 0)
    v2NewState [] (by decide)
